import Mathlib

/-!
Verification of the offline-capture-and-reconciliation subsystem of the
ElectoralSurvey repository (`src/react-app/utils/offlineStorage.ts`).

The subsystem is a client-side durable queue: `OfflineStorageManager`
persists `OfflineInterview` records in an IndexedDB object store keyed by
`id` (with an index on `metadata.sync_status`), and `SyncManager` drains
pending records against a remote two-phase API, updating per-record sync
status.

We embed the store as a list of records (IndexedDB key-path semantics:
`put` replaces the record with the same `id` or inserts a new one), and
each operation as a pure function from the source.  JavaScript truthiness
in the few places the source relies on it is translated explicitly:

* `!interview.id` — a string is falsy iff it is empty;
* `!interview.survey_id` — a number is falsy iff it is `0` (or `NaN` /
  `undefined`; we model the numeric field as `Nat`, with `0` as the falsy
  value);
* `!interview.responses?.length` — falsy iff the array is empty;
* `if (errorMessage)` — an optional string argument is truthy iff it is
  present and non-empty.

Asynchronous promise settlement is modelled by explicit result types
where a code path can fail to settle.  Low-level IndexedDB request
failures (the `onerror` handlers) are outside the model: the embedded
store operations always complete, as the claims under verification are
about the logic above the storage driver, not about storage faults.
-/

namespace OfflineStorage

/-- `metadata.sync_status`: `'pending' | 'syncing' | 'synced' | 'error'`. -/
inductive SyncStatus where
  | pending
  | syncing
  | synced
  | error
deriving DecidableEq, Repr

/-- One element of `OfflineInterview.responses`. -/
structure ResponseItem where
  question_id : Nat
  response_text : String
deriving DecidableEq, Repr

/-- `OfflineInterview.location` (coordinates abstracted to integers; no
claim depends on their numeric values). -/
structure Location where
  latitude : Int
  longitude : Int
  accuracy : Nat
  timestamp : Nat
deriving DecidableEq, Repr

/-- `OfflineInterview.metadata`.  Optional fields of the TypeScript
interface (`last_sync_attempt?`, `error_message?`) become `Option`. -/
structure Metadata where
  collected_at : String
  device_info : String
  randomization_seed : String
  sync_status : SyncStatus
  sync_attempts : Nat
  last_sync_attempt : Option String
  error_message : Option String
deriving DecidableEq, Repr

/-- The `OfflineInterview` record persisted in the `interviews` store. -/
structure OfflineInterview where
  id : String
  survey_id : Nat
  interviewer_id : String
  responses : List ResponseItem
  location : Option Location
  metadata : Metadata
deriving DecidableEq, Repr

/-- The `interviews` IndexedDB object store (key path `id`). -/
abbrev Store := List OfflineInterview

/-- IndexedDB `store.put(interview)` with key path `id`: replaces the
record having the same key, or inserts the record if the key is absent. -/
def putInterview (s : Store) (iv : OfflineInterview) : Store :=
  if s.any (fun r => r.id = iv.id) then
    s.map (fun r => if r.id = iv.id then iv else r)
  else
    s ++ [iv]

/-- IndexedDB `store.get(id)`: the record under the key, if any. -/
def getInterview (s : Store) (id : String) : Option OfflineInterview :=
  s.find? (fun r => r.id = id)

/-- `OfflineStorageManager.saveOfflineInterview`: validates
`!interview.id || !interview.survey_id || !interview.responses?.length`
and throws `'Dados da entrevista inválidos'` on failure, otherwise `put`s
the record (upsert). -/
def saveOfflineInterview (s : Store) (iv : OfflineInterview) :
    Except String Store :=
  if iv.id = "" ∨ iv.survey_id = 0 ∨ iv.responses = [] then
    Except.error "Dados da entrevista inválidos"
  else
    Except.ok (putInterview s iv)

/-- `OfflineStorageManager.getPendingInterviews(limit = 50)`: reads the
`sync_status` index with `getAll('pending')` and slices to `limit`.  Only
records whose status is literally `'pending'` are returned. -/
def getPendingInterviews (s : Store) (limit : Nat := 50) :
    List OfflineInterview :=
  (s.filter (fun r => r.metadata.sync_status = SyncStatus.pending)).take limit

/-- The read-modify-write applied by `updateSyncStatus` to the loaded
record: sets `sync_status`, increments `sync_attempts`
(`(sync_attempts || 0) + 1`), stamps `last_sync_attempt`, and sets
`error_message` only when a truthy (present, non-empty) message was
supplied — it is never cleared. -/
def applyStatusUpdate (now : String) (status : SyncStatus)
    (errorMessage : Option String) (iv : OfflineInterview) :
    OfflineInterview :=
  { iv with metadata :=
    { iv.metadata with
      sync_status := status
      sync_attempts := iv.metadata.sync_attempts + 1
      last_sync_attempt := some now
      error_message :=
        match errorMessage with
        | some msg => if msg = "" then iv.metadata.error_message else some msg
        | none => iv.metadata.error_message } }

/-- How a call to `updateSyncStatus` settles.  In the source, the `get`
request succeeds even for an absent key (with `undefined` result); the
`if (interview)` branch then resolves after the `put`, but there is no
`else` branch, so for an absent id neither `resolve` nor `reject` is ever
invoked and the returned promise stays pending forever.  (`reject(new
Error('Entrevista não encontrada'))` is attached to the low-level
`getRequest.onerror`, which does not fire for a missing key.) -/
inductive UpdateResult where
  | settled (s : Store)
  | neverSettles
deriving DecidableEq, Repr

/-- The store contents after `updateSyncStatus` runs its found-record
branch (load by id, mutate metadata, `put` back). -/
def updateApply (s : Store) (id : String) (status : SyncStatus)
    (errorMessage : Option String) (now : String) : Store :=
  s.map (fun r => if r.id = id then applyStatusUpdate now status errorMessage r else r)

/-- `OfflineStorageManager.updateSyncStatus(interviewId, status,
errorMessage?)`:  if a record with the id exists, mutate it and settle;
otherwise the promise never settles (see `UpdateResult`). -/
def updateSyncStatus (s : Store) (id : String) (status : SyncStatus)
    (errorMessage : Option String) (now : String) : UpdateResult :=
  if s.any (fun r => r.id = id) then
    UpdateResult.settled (updateApply s id status errorMessage now)
  else
    UpdateResult.neverSettles

/-- `OfflineStorageManager.removeSyncedInterview`: `store.delete(id)`,
idempotent. -/
def removeSyncedInterview (s : Store) (id : String) : Store :=
  s.filter (fun r => r.id ≠ id)

/-- Pending-count component of `getOfflineStats`. -/
def countPending (s : Store) : Nat :=
  (s.filter (fun r => r.metadata.sync_status = SyncStatus.pending)).length

/-! ## SyncManager

The drain (`syncPendingData`) is embedded as a pure function over an
explicit engine state.  The remote two-phase submission protocol
(`uploadInterview`: `POST /api/interviews` then
`POST /api/interviews/{id}/responses`) is abstracted by an oracle giving,
per record id, whether each phase succeeds; a thrown `fetch` is
observationally a failed phase (the `catch` returns `false`).

The source processes the pending list in batches of `batchSize`, with the
records of one batch in flight concurrently and batches sequentially.
Each record's processing touches only the store entry under its own id,
and pending ids are distinct in any store reachable through the key-path
`put` API, so the concurrent per-batch execution linearises to processing
the listed records one after another; the embedding performs that
linearisation. -/

/-- Outcome of the two remote calls for one record: whether `POST
/api/interviews` responds ok, and whether `POST
/api/interviews/{id}/responses` responds ok (a network throw counts as
not ok). -/
structure RemoteOutcome where
  createOk : Bool
  responsesOk : Bool
deriving DecidableEq, Repr

/-- `SyncManager.uploadInterview`: returns `false` unless the create call
succeeds, then returns whether the responses call succeeds; any thrown
error also yields `false`. -/
def uploadInterview (o : RemoteOutcome) : Bool :=
  o.createOk && o.responsesOk

/-- The error message thrown (and recorded) when `uploadInterview`
resolves `false`: `new Error('Falha no upload da entrevista')`. -/
def uploadFailMsg : String := "Falha no upload da entrevista"

/-- One entry of the `details` array returned by `syncPendingData`. -/
structure Detail where
  id : String
  status : SyncStatus
  error : Option String
deriving DecidableEq, Repr

/-- Per-record body of the drain: transition to `'syncing'`, attempt the
upload; on success transition to `'synced'` and delete the record; on
failure the thrown error is caught and the record transitions to
`'error'` with the error message.  Returns the store afterwards, the
detail entry pushed, and the success flag.  The record was obtained from
`getPendingInterviews`, so its id is present and both `updateSyncStatus`
promises settle; their settled stores are `updateApply`. -/
def processOne (outcome : String → RemoteOutcome) (now : String)
    (s : Store) (iv : OfflineInterview) : Store × Detail × Bool :=
  let s1 := updateApply s iv.id SyncStatus.syncing none now
  if uploadInterview (outcome iv.id) then
    let s2 := updateApply s1 iv.id SyncStatus.synced none now
    let s3 := removeSyncedInterview s2 iv.id
    (s3, ⟨iv.id, SyncStatus.synced, none⟩, true)
  else
    let s2 := updateApply s1 iv.id SyncStatus.error (some uploadFailMsg) now
    (s2, ⟨iv.id, SyncStatus.error, some uploadFailMsg⟩, false)

/-- Sequential processing of the listed pending records (the
linearisation of the batched drain loop).  Accumulates the details, the
success and error counts, and the ids for which a remote upload attempt
was made. -/
def drainLoop (outcome : String → RemoteOutcome) (now : String)
    (s : Store) : List OfflineInterview →
    Store × List Detail × Nat × Nat × List String
  | [] => (s, [], 0, 0, [])
  | iv :: rest =>
    let p := processOne outcome now s iv
    let t := drainLoop outcome now p.1 rest
    (t.1, p.2.1 :: t.2.1,
      (if p.2.2 then 1 else 0) + t.2.2.1,
      (if p.2.2 then 0 else 1) + t.2.2.2.1,
      iv.id :: t.2.2.2.2)

/-- Aggregate result returned by `syncPendingData`. -/
structure DrainResult where
  success : Nat
  errors : Nat
  details : List Detail
deriving DecidableEq, Repr

/-- `SyncManager` state relevant to the drain: the single-flight flag
`isSyncing`, current connectivity (`navigator.onLine`), and the durable
store. -/
structure SyncState where
  isSyncing : Bool
  onLine : Bool
  store : Store
deriving DecidableEq, Repr

/-- `SyncManager.syncPendingData`: if a drain is in flight or the device
is offline, return `{ success: 0, errors: 0, details: [] }` immediately
with nothing touched; otherwise set the single-flight flag, list the
pending records (limit 50), process them, and clear the flag in
`finally`.  Also returns the ids subjected to a remote upload attempt. -/
def syncPendingData (outcome : String → RemoteOutcome) (now : String)
    (st : SyncState) : DrainResult × SyncState × List String :=
  if st.isSyncing || !st.onLine then
    (⟨0, 0, []⟩, st, [])
  else
    let pend := getPendingInterviews st.store 50
    let t := drainLoop outcome now st.store pend
    (⟨t.2.2.1, t.2.2.2.1, t.2.1⟩,
      { isSyncing := false, onLine := st.onLine, store := t.1 },
      t.2.2.2.2)

/-- `SyncManager.forcSync`: resets the single-flight flag, then drains. -/
def forcSync (outcome : String → RemoteOutcome) (now : String)
    (st : SyncState) : DrainResult × SyncState × List String :=
  syncPendingData outcome now { st with isSyncing := false }

/-! ## Connectivity & Scheduling Controller

`setupAutoSync` registers a `window.addEventListener('online', ...)`
handler (a fresh arrow function) and starts the periodic scheduling
timer; `stop` clears both timers and calls
`window.removeEventListener('online', () => this.syncPendingData())`.
DOM event listeners are identified by callback function identity; the
embedding models closure identities as tokens.  The closure allocated
inside `stop` is a different function object from the one registered in
`setupAutoSync`, so it gets a distinct token and the removal matches
nothing. -/

/-- Identity token of the arrow function registered for `'online'` inside
`setupAutoSync`. -/
def setupOnlineHandler : Nat := 0

/-- Identity token of the fresh arrow function allocated by the
`removeEventListener` call inside `stop`. -/
def stopOnlineHandlerArg : Nat := 1

/-- Identity token of the debounce timer the online handler schedules. -/
def debounceTimerId : Nat := 10

/-- Identity token of the periodic scheduling timer. -/
def periodicTimerId : Nat := 11

/-- Controller state: the listeners currently attached for the `'online'`
event (by function identity), and the two timer slots of `SyncManager`. -/
structure ControllerState where
  onlineListeners : List Nat
  debounceTimer : Option Nat
  syncInterval : Option Nat
deriving DecidableEq, Repr

/-- State of a freshly constructed `SyncManager` before `setupAutoSync`
runs in the constructor. -/
def initController : ControllerState :=
  { onlineListeners := [], debounceTimer := none, syncInterval := none }

/-- `SyncManager.setupAutoSync`: attaches the `'online'` listener and
schedules the periodic timer (`requestIdleCallback`/`setTimeout` chain or
`setInterval` fallback — either way a cancellable timer handle is kept in
`syncInterval`). -/
def setupAutoSync (c : ControllerState) : ControllerState :=
  { c with
    onlineListeners := c.onlineListeners ++ [setupOnlineHandler]
    syncInterval := some periodicTimerId }

/-- `SyncManager.stop`: clears the periodic timer and the debounce timer,
then calls `removeEventListener('online', () => this.syncPendingData())`
with a newly allocated closure (`stopOnlineHandlerArg`); removal is by
callback identity, so only a listener equal to that fresh token would be
detached. -/
def stop (c : ControllerState) : ControllerState :=
  { c with
    syncInterval := none
    debounceTimer := none
    onlineListeners := c.onlineListeners.filter (fun l => l ≠ stopOnlineHandlerArg) }

/-- Dispatch of a browser `'online'` event: each attached listener runs;
the `setupAutoSync` handler clears any pending debounce timer and
schedules a fresh debounced `syncPendingData` call. -/
def handleOnlineEvent (c : ControllerState) : ControllerState :=
  if setupOnlineHandler ∈ c.onlineListeners then
    { c with debounceTimer := some debounceTimerId }
  else
    c

/-! ## Store lemmas -/

theorem applyStatusUpdate_id (now : String) (status : SyncStatus)
    (msg : Option String) (iv : OfflineInterview) :
    (applyStatusUpdate now status msg iv).id = iv.id := rfl

theorem getInterview_cons (r : OfflineInterview) (s : Store) (j : String) :
    getInterview (r :: s) j = if r.id = j then some r else getInterview s j := by
  by_cases hj : r.id = j
  · simp [getInterview, List.find?_cons, hj]
  · simp [getInterview, List.find?_cons, hj]

theorem getInterview_updateApply_ne (s : Store) (id j : String)
    (status : SyncStatus) (msg : Option String) (now : String)
    (h : j ≠ id) :
    getInterview (updateApply s id status msg now) j = getInterview s j := by
  induction s with
  | nil => rfl
  | cons r rest ih =>
    show getInterview ((if r.id = id then applyStatusUpdate now status msg r else r) ::
      updateApply rest id status msg now) j = _
    by_cases hr : r.id = id
    · rw [if_pos hr, getInterview_cons, getInterview_cons,
        applyStatusUpdate_id, hr, if_neg (Ne.symm h), if_neg (Ne.symm h)]
      exact ih
    · rw [if_neg hr, getInterview_cons, getInterview_cons]
      by_cases hj : r.id = j
      · rw [if_pos hj, if_pos hj]
      · rw [if_neg hj, if_neg hj]
        exact ih

theorem getInterview_updateApply_eq (s : Store) (id : String)
    (status : SyncStatus) (msg : Option String) (now : String) :
    getInterview (updateApply s id status msg now) id =
      (getInterview s id).map (applyStatusUpdate now status msg) := by
  induction s with
  | nil => rfl
  | cons r rest ih =>
    show getInterview ((if r.id = id then applyStatusUpdate now status msg r else r) ::
      updateApply rest id status msg now) id = _
    by_cases hr : r.id = id
    · rw [if_pos hr, getInterview_cons, applyStatusUpdate_id,
        getInterview_cons, if_pos hr, if_pos hr]
      rfl
    · rw [if_neg hr, getInterview_cons, getInterview_cons,
        if_neg hr, if_neg hr]
      exact ih

theorem getInterview_remove_ne (s : Store) (id j : String) (h : j ≠ id) :
    getInterview (removeSyncedInterview s id) j = getInterview s j := by
  induction s with
  | nil => rfl
  | cons r rest ih =>
    rw [getInterview_cons]
    simp only [removeSyncedInterview, List.filter_cons] at ih ⊢
    by_cases hr : r.id = id
    · have hrj : ¬ r.id = j := by rw [hr]; exact Ne.symm h
      rw [if_neg (by simpa using hr), if_neg hrj]
      exact ih
    · rw [if_pos (by simpa using hr), getInterview_cons]
      by_cases hj : r.id = j
      · rw [if_pos hj, if_pos hj]
      · rw [if_neg hj, if_neg hj]
        exact ih

theorem getInterview_remove_eq (s : Store) (id : String) :
    getInterview (removeSyncedInterview s id) id = none := by
  induction s with
  | nil => rfl
  | cons r rest ih =>
    simp only [removeSyncedInterview, List.filter_cons] at ih ⊢
    by_cases hr : r.id = id
    · rw [if_neg (by simpa using hr)]
      exact ih
    · rw [if_pos (by simpa using hr), getInterview_cons, if_neg hr]
      exact ih

/-! ## Drain lemmas -/

theorem processOne_store_ne (outcome : String → RemoteOutcome) (now : String)
    (s : Store) (iv : OfflineInterview) (j : String) (h : j ≠ iv.id) :
    getInterview (processOne outcome now s iv).1 j = getInterview s j := by
  simp only [processOne]
  by_cases hu : uploadInterview (outcome iv.id) = true
  · rw [if_pos hu]
    show getInterview (removeSyncedInterview _ _) j = _
    rw [getInterview_remove_ne _ _ _ h, getInterview_updateApply_ne _ _ _ _ _ _ h,
      getInterview_updateApply_ne _ _ _ _ _ _ h]
  · rw [if_neg hu]
    show getInterview (updateApply _ _ _ _ _) j = _
    rw [getInterview_updateApply_ne _ _ _ _ _ _ h,
      getInterview_updateApply_ne _ _ _ _ _ _ h]

theorem processOne_store_self_success (outcome : String → RemoteOutcome)
    (now : String) (s : Store) (iv : OfflineInterview)
    (hu : uploadInterview (outcome iv.id) = true) :
    getInterview (processOne outcome now s iv).1 iv.id = none := by
  simp only [processOne]
  rw [if_pos hu]
  exact getInterview_remove_eq _ _

theorem processOne_store_self_fail (outcome : String → RemoteOutcome)
    (now : String) (s : Store) (iv : OfflineInterview)
    (hu : uploadInterview (outcome iv.id) = false) :
    getInterview (processOne outcome now s iv).1 iv.id =
      ((getInterview s iv.id).map (applyStatusUpdate now SyncStatus.syncing none)).map
        (applyStatusUpdate now SyncStatus.error (some uploadFailMsg)) := by
  simp only [processOne]
  rw [if_neg (by simp [hu])]
  show getInterview (updateApply _ _ _ _ _) iv.id = _
  rw [getInterview_updateApply_eq, getInterview_updateApply_eq]

theorem processOne_detail (outcome : String → RemoteOutcome) (now : String)
    (s : Store) (iv : OfflineInterview) :
    (processOne outcome now s iv).2.1 =
      if uploadInterview (outcome iv.id) then (⟨iv.id, SyncStatus.synced, none⟩ : Detail)
      else ⟨iv.id, SyncStatus.error, some uploadFailMsg⟩ := by
  by_cases hu : uploadInterview (outcome iv.id) = true <;> simp [processOne, hu]

theorem drainLoop_store_not_mem (outcome : String → RemoteOutcome) (now : String)
    (L : List OfflineInterview) (s : Store) (j : String)
    (h : ∀ iv ∈ L, iv.id ≠ j) :
    getInterview (drainLoop outcome now s L).1 j = getInterview s j := by
  induction L generalizing s with
  | nil => rfl
  | cons iv rest ih =>
    simp only [drainLoop]
    rw [ih _ (fun q hq => h q (List.mem_cons_of_mem _ hq))]
    exact processOne_store_ne _ _ _ _ _ (Ne.symm (h iv (List.mem_cons_self _ _)))

theorem drainLoop_store_append (outcome : String → RemoteOutcome) (now : String)
    (L1 L2 : List OfflineInterview) (s : Store) :
    (drainLoop outcome now s (L1 ++ L2)).1 =
      (drainLoop outcome now (drainLoop outcome now s L1).1 L2).1 := by
  induction L1 generalizing s with
  | nil => rfl
  | cons iv rest ih =>
    simp only [List.cons_append, drainLoop]
    exact ih _

theorem drainLoop_store_target_success (outcome : String → RemoteOutcome)
    (now : String) (s : Store) (L1 L2 : List OfflineInterview)
    (iv : OfflineInterview) (h2 : ∀ q ∈ L2, q.id ≠ iv.id)
    (hu : uploadInterview (outcome iv.id) = true) :
    getInterview (drainLoop outcome now s (L1 ++ iv :: L2)).1 iv.id = none := by
  rw [drainLoop_store_append]
  simp only [drainLoop]
  rw [drainLoop_store_not_mem _ _ _ _ _ h2]
  exact processOne_store_self_success _ _ _ _ hu

theorem drainLoop_store_target_fail (outcome : String → RemoteOutcome)
    (now : String) (s : Store) (L1 L2 : List OfflineInterview)
    (iv : OfflineInterview) (h1 : ∀ q ∈ L1, q.id ≠ iv.id)
    (h2 : ∀ q ∈ L2, q.id ≠ iv.id)
    (hu : uploadInterview (outcome iv.id) = false) :
    getInterview (drainLoop outcome now s (L1 ++ iv :: L2)).1 iv.id =
      ((getInterview s iv.id).map (applyStatusUpdate now SyncStatus.syncing none)).map
        (applyStatusUpdate now SyncStatus.error (some uploadFailMsg)) := by
  rw [drainLoop_store_append]
  simp only [drainLoop]
  rw [drainLoop_store_not_mem _ _ _ _ _ h2,
    processOne_store_self_fail _ _ _ _ hu,
    drainLoop_store_not_mem _ _ _ _ _ h1]

theorem drainLoop_details (outcome : String → RemoteOutcome) (now : String)
    (L : List OfflineInterview) (s : Store) :
    (drainLoop outcome now s L).2.1 =
      L.map (fun iv =>
        if uploadInterview (outcome iv.id) then (⟨iv.id, SyncStatus.synced, none⟩ : Detail)
        else ⟨iv.id, SyncStatus.error, some uploadFailMsg⟩) := by
  induction L generalizing s with
  | nil => rfl
  | cons iv rest ih =>
    simp only [drainLoop, List.map_cons]
    rw [processOne_detail, ih]

theorem drainLoop_calls (outcome : String → RemoteOutcome) (now : String)
    (L : List OfflineInterview) (s : Store) :
    (drainLoop outcome now s L).2.2.2.2 = L.map (fun iv => iv.id) := by
  induction L generalizing s with
  | nil => rfl
  | cons iv rest ih =>
    simp only [drainLoop, List.map_cons]
    rw [ih]

/-! ## Membership and uniqueness lemmas -/

theorem getPendingInterviews_sublist (s : Store) (limit : Nat) :
    List.Sublist (getPendingInterviews s limit) s :=
  (List.take_sublist _ _).trans (List.filter_sublist _)

theorem mem_getPending (s : Store) (limit : Nat) (r : OfflineInterview)
    (hr : r ∈ getPendingInterviews s limit) :
    r ∈ s ∧ r.metadata.sync_status = SyncStatus.pending := by
  have h1 : r ∈ s.filter (fun q => q.metadata.sync_status = SyncStatus.pending) :=
    List.mem_of_mem_take hr
  exact ⟨(List.mem_filter.mp h1).1, by simpa using (List.mem_filter.mp h1).2⟩

theorem getInterview_of_mem (s : Store) (r : OfflineInterview)
    (hn : (s.map (fun q => q.id)).Nodup) (hr : r ∈ s) :
    getInterview s r.id = some r := by
  induction s with
  | nil => cases hr
  | cons a rest ih =>
    rw [getInterview_cons]
    have hn' : a.id ∉ rest.map (fun q => q.id) ∧ (rest.map (fun q => q.id)).Nodup :=
      List.nodup_cons.mp (by simpa using hn)
    rcases List.mem_cons.mp hr with h | h
    · subst h
      rw [if_pos rfl]
    · have hne : a.id ≠ r.id := fun he => hn'.1 (he ▸ List.mem_map_of_mem _ h)
      rw [if_neg hne]
      exact ih hn'.2 h

theorem eq_of_mem_of_id_eq (s : Store) (a b : OfflineInterview)
    (hn : (s.map (fun q => q.id)).Nodup) (ha : a ∈ s) (hb : b ∈ s)
    (hid : a.id = b.id) : a = b := by
  have h1 := getInterview_of_mem s a hn ha
  have h2 := getInterview_of_mem s b hn hb
  rw [hid, h2] at h1
  exact (Option.some.inj h1).symm

theorem pending_ids_nodup (s : Store) (limit : Nat)
    (hn : (s.map (fun q => q.id)).Nodup) :
    ((getPendingInterviews s limit).map (fun q => q.id)).Nodup :=
  List.Nodup.sublist (List.Sublist.map _ (getPendingInterviews_sublist s limit)) hn

theorem exists_pending_split (L : List OfflineInterview) (r : OfflineInterview)
    (hr : r ∈ L) (hn : (L.map (fun q => q.id)).Nodup) :
    ∃ L1 L2, L = L1 ++ r :: L2 ∧ (∀ q ∈ L1, q.id ≠ r.id) ∧
      (∀ q ∈ L2, q.id ≠ r.id) := by
  obtain ⟨L1, L2, rfl⟩ := List.append_of_mem hr
  have hn' : ((L1.map (fun q => q.id)) ++ (r.id :: L2.map (fun q => q.id))).Nodup := by
    simpa using hn
  obtain ⟨n1, n2, disj⟩ := List.nodup_append.mp hn'
  refine ⟨L1, L2, rfl, ?_, ?_⟩
  · intro q hq he
    exact disj (List.mem_map_of_mem _ hq) (he ▸ List.mem_cons_self _ _)
  · intro q hq he
    exact (List.nodup_cons.mp n2).1 (he ▸ List.mem_map_of_mem _ hq)

/-! ## Drain-level helper lemmas -/

theorem syncPendingData_store (outcome : String → RemoteOutcome) (now : String)
    (s : Store) :
    (syncPendingData outcome now ⟨false, true, s⟩).2.1.store =
      (drainLoop outcome now s (getPendingInterviews s 50)).1 := by
  simp [syncPendingData]

theorem syncPendingData_details (outcome : String → RemoteOutcome) (now : String)
    (s : Store) :
    (syncPendingData outcome now ⟨false, true, s⟩).1.details =
      (getPendingInterviews s 50).map (fun iv =>
        if uploadInterview (outcome iv.id) then (⟨iv.id, SyncStatus.synced, none⟩ : Detail)
        else ⟨iv.id, SyncStatus.error, some uploadFailMsg⟩) := by
  simp [syncPendingData, drainLoop_details]

/-- Records whose status is not `'pending'` are invisible to the drain:
`getPendingInterviews` filters on `'pending'`, and each processed record
only touches the store entry under its own id. -/
theorem drain_preserves_nonpending (outcome : String → RemoteOutcome)
    (now : String) (s : Store) (r : OfflineInterview)
    (hn : (s.map (fun q => q.id)).Nodup) (hr : r ∈ s)
    (hs : r.metadata.sync_status ≠ SyncStatus.pending) (isS onL : Bool) :
    getInterview (syncPendingData outcome now ⟨isS, onL, s⟩).2.1.store r.id =
      some r := by
  have hbase := getInterview_of_mem s r hn hr
  cases isS with
  | true => simpa [syncPendingData] using hbase
  | false =>
    cases onL with
    | false => simpa [syncPendingData] using hbase
    | true =>
      rw [syncPendingData_store, drainLoop_store_not_mem]
      · exact hbase
      · intro q hq he
        have h2 := mem_getPending s 50 q hq
        exact hs (eq_of_mem_of_id_eq s q r hn h2.1 hr he ▸ h2.2)

/-- A listed pending record whose upload fails ends up back in the store
with the two status updates (`'syncing'` then `'error'`) applied. -/
theorem drain_fail_result (outcome : String → RemoteOutcome) (now : String)
    (s : Store) (r : OfflineInterview)
    (hn : (s.map (fun q => q.id)).Nodup)
    (hr : r ∈ getPendingInterviews s 50)
    (hu : uploadInterview (outcome r.id) = false) :
    getInterview (syncPendingData outcome now ⟨false, true, s⟩).2.1.store r.id =
      some (applyStatusUpdate now SyncStatus.error (some uploadFailMsg)
        (applyStatusUpdate now SyncStatus.syncing none r)) := by
  rw [syncPendingData_store]
  obtain ⟨L1, L2, hL, h1, h2⟩ :=
    exists_pending_split _ r hr (pending_ids_nodup s 50 hn)
  rw [hL, drainLoop_store_target_fail _ _ _ _ _ _ h1 h2 hu,
    getInterview_of_mem s r hn (mem_getPending s 50 r hr).1]
  rfl

/-- A listed pending record whose upload succeeds is deleted from the
store by the drain. -/
theorem drain_success_result (outcome : String → RemoteOutcome) (now : String)
    (s : Store) (r : OfflineInterview)
    (hn : (s.map (fun q => q.id)).Nodup)
    (hr : r ∈ getPendingInterviews s 50)
    (hu : uploadInterview (outcome r.id) = true) :
    getInterview (syncPendingData outcome now ⟨false, true, s⟩).2.1.store r.id =
      none := by
  rw [syncPendingData_store]
  obtain ⟨L1, L2, hL, h1, h2⟩ :=
    exists_pending_split _ r hr (pending_ids_nodup s 50 hn)
  rw [hL]
  exact drainLoop_store_target_success _ _ _ _ _ _ h2 hu

/-! ## `putInterview` lemmas -/

theorem getInterview_map_put (s : Store) (iv : OfflineInterview)
    (hp : s.any (fun r => r.id = iv.id) = true) :
    getInterview (s.map (fun r => if r.id = iv.id then iv else r)) iv.id =
      some iv := by
  induction s with
  | nil => cases hp
  | cons a rest ih =>
    show getInterview ((if a.id = iv.id then iv else a) :: _) iv.id = _
    by_cases ha : a.id = iv.id
    · rw [if_pos ha, getInterview_cons, if_pos rfl]
    · rw [if_neg ha, getInterview_cons, if_neg ha]
      apply ih
      simpa [List.any_cons, ha] using hp

theorem getInterview_map_put_ne (s : Store) (iv : OfflineInterview)
    (j : String) (h : j ≠ iv.id) :
    getInterview (s.map (fun r => if r.id = iv.id then iv else r)) j =
      getInterview s j := by
  induction s with
  | nil => rfl
  | cons a rest ih =>
    show getInterview ((if a.id = iv.id then iv else a) :: _) j = _
    by_cases ha : a.id = iv.id
    · rw [if_pos ha, getInterview_cons, getInterview_cons,
        if_neg (Ne.symm h), if_neg (fun hj => h (by rw [← hj, ha]))]
      exact ih
    · rw [if_neg ha, getInterview_cons, getInterview_cons]
      by_cases haj : a.id = j
      · rw [if_pos haj, if_pos haj]
      · rw [if_neg haj, if_neg haj]
        exact ih

theorem getInterview_append_single (s : Store) (iv : OfflineInterview)
    (hp : ∀ r ∈ s, r.id ≠ iv.id) :
    getInterview (s ++ [iv]) iv.id = some iv := by
  induction s with
  | nil => rw [List.nil_append, getInterview_cons, if_pos rfl]
  | cons a rest ih =>
    rw [List.cons_append, getInterview_cons,
      if_neg (hp a (List.mem_cons_self _ _))]
    exact ih (fun r hr => hp r (List.mem_cons_of_mem _ hr))

theorem getInterview_append_single_ne (s : Store) (iv : OfflineInterview)
    (j : String) (h : j ≠ iv.id) :
    getInterview (s ++ [iv]) j = getInterview s j := by
  induction s with
  | nil =>
    show getInterview [iv] j = none
    rw [getInterview_cons, if_neg (Ne.symm h)]
    rfl
  | cons a rest ih =>
    rw [List.cons_append, getInterview_cons, getInterview_cons]
    by_cases haj : a.id = j
    · rw [if_pos haj, if_pos haj]
    · rw [if_neg haj, if_neg haj]
      exact ih

theorem getInterview_put_self (s : Store) (iv : OfflineInterview) :
    getInterview (putInterview s iv) iv.id = some iv := by
  unfold putInterview
  by_cases hp : s.any (fun r => r.id = iv.id) = true
  · rw [if_pos hp]
    exact getInterview_map_put s iv hp
  · rw [if_neg hp]
    apply getInterview_append_single
    intro r hr
    simpa using (List.any_eq_false.mp (Bool.eq_false_iff.mpr hp)) r hr

theorem getInterview_put_ne (s : Store) (iv : OfflineInterview)
    (j : String) (h : j ≠ iv.id) :
    getInterview (putInterview s iv) j = getInterview s j := by
  unfold putInterview
  by_cases hp : s.any (fun r => r.id = iv.id) = true
  · rw [if_pos hp]
    exact getInterview_map_put_ne s iv j h
  · rw [if_neg hp]
    exact getInterview_append_single_ne s iv j h

theorem map_put_ids (s : Store) (iv : OfflineInterview) :
    (s.map (fun r => if r.id = iv.id then iv else r)).map (fun q => q.id) =
      s.map (fun q => q.id) := by
  induction s with
  | nil => rfl
  | cons a rest ih =>
    simp only [List.map_cons]
    by_cases ha : a.id = iv.id
    · rw [if_pos ha, ha, ih]
    · rw [if_neg ha, ih]

theorem putInterview_ids_nodup (s : Store) (iv : OfflineInterview)
    (hn : (s.map (fun q => q.id)).Nodup) :
    ((putInterview s iv).map (fun q => q.id)).Nodup := by
  unfold putInterview
  by_cases hp : s.any (fun r => r.id = iv.id) = true
  · rw [if_pos hp, map_put_ids]
    exact hn
  · rw [if_neg hp, List.map_append, List.nodup_append]
    refine ⟨hn, List.nodup_singleton _, ?_⟩
    intro x hx hx2
    obtain ⟨q, hq, hqe⟩ := List.mem_map.mp hx
    have hxiv : x = iv.id := by simpa using hx2
    have hq' := List.any_eq_false.mp (Bool.eq_false_iff.mpr hp) q hq
    simp only [decide_eq_true_eq] at hq'
    exact hq' (hqe.trans hxiv)

theorem filter_id_singleton (s : Store) (iv : OfflineInterview) (x : String)
    (hn : (s.map (fun q => q.id)).Nodup) (hfind : getInterview s x = some iv) :
    s.filter (fun r => r.id = x) = [iv] := by
  induction s with
  | nil => cases hfind
  | cons a rest ih =>
    have hn' : (∀ q ∈ rest, ¬ q.id = a.id) ∧
        (rest.map (fun q => q.id)).Nodup := by simpa using hn
    rw [getInterview_cons] at hfind
    simp only [List.filter_cons]
    by_cases ha : a.id = x
    · rw [if_pos ha] at hfind
      rw [if_pos (by simpa using ha)]
      have hrest : List.filter (fun r => decide (r.id = x)) rest = [] := by
        rw [List.filter_eq_nil_iff]
        intro q hq
        simp only [decide_eq_true_eq]
        intro he
        exact hn'.1 q hq (he.trans ha.symm)
      rw [hrest, Option.some.inj hfind]
    · rw [if_neg ha] at hfind
      rw [if_neg (by simpa using ha)]
      exact ih hn'.2 hfind

/-! ## Concrete fixtures

A record freshly enqueued by `useOfflineStorage.saveOfflineInterview`
(status `'pending'`, `sync_attempts: 0`), plus derived records in the
other states, and remote oracles for the interesting outcomes. -/

def pendingRec : OfflineInterview :=
  { id := "offline_1"
    survey_id := 7
    interviewer_id := "user1"
    responses := [⟨1, "Sim"⟩]
    location := none
    metadata :=
      { collected_at := "2026-01-01T00:00:00.000Z"
        device_info := "device"
        randomization_seed := "seed"
        sync_status := SyncStatus.pending
        sync_attempts := 0
        last_sync_attempt := none
        error_message := none } }

def errorRec : OfflineInterview :=
  { pendingRec with
    id := "offline_err"
    metadata := { pendingRec.metadata with
      sync_status := SyncStatus.error
      sync_attempts := 2
      last_sync_attempt := some "2026-01-01T01:00:00.000Z"
      error_message := some uploadFailMsg } }

def syncingRec : OfflineInterview :=
  { pendingRec with
    id := "offline_syncing"
    metadata := { pendingRec.metadata with
      sync_status := SyncStatus.syncing
      sync_attempts := 1
      last_sync_attempt := some "2026-01-01T01:00:00.000Z" } }

/-- Oracle for the partial two-phase failure: `POST /api/interviews`
succeeds, `POST /api/interviews/{id}/responses` fails. -/
def partialFailOutcome : String → RemoteOutcome := fun _ => ⟨true, false⟩

/-- Oracle for full success of both remote calls. -/
def allOkOutcome : String → RemoteOutcome := fun _ => ⟨true, true⟩

/-- Store left behind by a first drain of a single fresh record under the
partial two-phase failure. -/
def failDrainStore : Store :=
  (syncPendingData partialFailOutcome "t1" ⟨false, true, [pendingRec]⟩).2.1.store

/-! ## Claim theorems -/

/-- C5: if a drain is already in progress (`isSyncing`) or connectivity is
down, `syncPendingData` returns the zero-result `{ success: 0, errors: 0,
details: [] }` immediately, with the state (hence the store) unchanged and
no remote upload attempted; and a drain that does run (guard passed)
always exits with the single-flight flag cleared. -/
theorem syncPendingData_single_flight (outcome : String → RemoteOutcome)
    (now : String) (s : Store) :
    (∀ onL : Bool, syncPendingData outcome now ⟨true, onL, s⟩ =
      (⟨0, 0, []⟩, ⟨true, onL, s⟩, [])) ∧
    syncPendingData outcome now ⟨false, false, s⟩ =
      (⟨0, 0, []⟩, ⟨false, false, s⟩, []) ∧
    (syncPendingData outcome now ⟨false, true, s⟩).2.1.isSyncing = false := by
  refine ⟨fun onL => ?_, ?_, ?_⟩ <;> simp [syncPendingData]

/-- C6: `saveOfflineInterview` rejects exactly the structurally invalid
records — empty `id`, missing/zero `survey_id` (JavaScript truthiness:
`!interview.survey_id`), or empty `responses` — with the `InvalidRecord`
error (`'Dados da entrevista inválidos'`) and produces no store (so the
caller's store, and in particular its pending count, is untouched); every
structurally valid record is upserted. -/
theorem saveOfflineInterview_validation (s : Store) (iv : OfflineInterview) :
    (iv.id = "" ∨ iv.survey_id = 0 ∨ iv.responses = [] →
      saveOfflineInterview s iv = Except.error "Dados da entrevista inválidos" ∧
      ∀ s' : Store, saveOfflineInterview s iv ≠ Except.ok s') ∧
    (iv.id ≠ "" → iv.survey_id ≠ 0 → iv.responses ≠ [] →
      saveOfflineInterview s iv = Except.ok (putInterview s iv)) := by
  constructor
  · intro h
    constructor
    · simp only [saveOfflineInterview]
      rw [if_pos h]
    · intro s' he
      simp only [saveOfflineInterview] at he
      rw [if_pos h] at he
      cases he
  · intro ha hb hc
    simp only [saveOfflineInterview]
    rw [if_neg]
    rintro (h | h | h)
    · exact ha h
    · exact hb h
    · exact hc h

/-- Witness for C6 at concrete inputs: a record with empty `responses` is
rejected, and the fresh valid record is stored. -/
theorem saveOfflineInterview_validation_witness :
    saveOfflineInterview [] { pendingRec with responses := [] } =
      Except.error "Dados da entrevista inválidos" ∧
    saveOfflineInterview [] pendingRec = Except.ok (putInterview [] pendingRec) :=
  ⟨((saveOfflineInterview_validation [] _).1 (Or.inr (Or.inr rfl))).1,
   (saveOfflineInterview_validation [] pendingRec).2
     (by decide) (by decide) (by decide)⟩

/-- C2: the claim is that `updateSyncStatus` on an absent id settles with
a `RecordNotFound` rejection.  In the code, the IndexedDB `get` request
succeeds with an `undefined` result for an absent key, the `if
(interview)` guard then skips the only `resolve` call and there is no
`else` branch, so the returned promise never settles at all — the
`'Entrevista não encontrada'` rejection is attached to the low-level
`getRequest.onerror`, which a missing key does not fire.  This theorem
evaluates the embedded operation on any store not containing the id. -/
theorem updateSyncStatus_absent_never_settles (s : Store) (id : String)
    (status : SyncStatus) (msg : Option String) (now : String)
    (h : ∀ r ∈ s, r.id ≠ id) :
    updateSyncStatus s id status msg now = UpdateResult.neverSettles := by
  have hfalse : s.any (fun r => r.id = id) = false := by
    rw [List.any_eq_false]
    intro r hr
    simpa using h r hr
  simp only [updateSyncStatus]
  rw [if_neg]
  rw [hfalse]
  exact Bool.false_ne_true

/-- Witness for C2: updating the status of id `"missing"` against a store
holding only `pendingRec` never settles. -/
theorem updateSyncStatus_absent_never_settles_witness :
    updateSyncStatus [pendingRec] "missing" SyncStatus.synced none "t" =
      UpdateResult.neverSettles :=
  updateSyncStatus_absent_never_settles [pendingRec] "missing"
    SyncStatus.synced none "t" (by decide)

/-- C10: the claim is that `stop` detaches the connectivity listeners so
no further drain trigger can fire.  `stop` does cancel both timers, but
its `removeEventListener('online', () => this.syncPendingData())` passes
a freshly allocated closure; DOM removal matches by callback identity, so
the listener registered by `setupAutoSync` stays attached, and an
`'online'` event arriving after `stop` still schedules the debounced
drain trigger. -/
theorem stop_leaves_online_listener_attached :
    (stop (setupAutoSync initController)).syncInterval = none ∧
    (stop (setupAutoSync initController)).debounceTimer = none ∧
    setupOnlineHandler ∈ (stop (setupAutoSync initController)).onlineListeners ∧
    (handleOnlineEvent (stop (setupAutoSync initController))).debounceTimer =
      some debounceTimerId := by
  decide

/-- C7 counterexample: a store state violating "`errorMessage` present
only when status is `error`" is reachable through the public
`updateSyncStatus` operation: transitioning an `error` record (carrying a
message) to `'pending'` — the manual-retry transition of the spec's state
machine — without supplying a message leaves the old `errorMessage` in
place, because the code only ever sets the field (`if (errorMessage)`)
and never deletes it. -/
theorem errorMessage_outlives_error_cex :
    updateSyncStatus [errorRec] "offline_err" SyncStatus.pending none "t2" =
      UpdateResult.settled
        [applyStatusUpdate "t2" SyncStatus.pending none errorRec] ∧
    (applyStatusUpdate "t2" SyncStatus.pending none errorRec).metadata.sync_status =
      SyncStatus.pending ∧
    (applyStatusUpdate "t2" SyncStatus.pending none errorRec).metadata.error_message =
      some uploadFailMsg := by
  decide

/-- C7 amended: `updateSyncStatus` never clears `errorMessage`; the
read-modify-write leaves the previous message in place whenever no
message (or an empty one) is supplied — in particular on transitions to
non-`error` statuses — and overwrites it only with a non-empty supplied
message. -/
theorem updateSyncStatus_never_clears_errorMessage (iv : OfflineInterview)
    (now : String) (status : SyncStatus) :
    (applyStatusUpdate now status none iv).metadata.error_message =
      iv.metadata.error_message ∧
    ∀ msg : String,
      (applyStatusUpdate now status (some msg) iv).metadata.error_message =
        if msg = "" then iv.metadata.error_message else some msg :=
  ⟨rfl, fun _ => rfl⟩

/-- Helper: a structurally valid record is saved as an upsert. -/
theorem saveOfflineInterview_ok (s : Store) (iv : OfflineInterview)
    (ha : iv.id ≠ "") (hb : iv.survey_id ≠ 0) (hc : iv.responses ≠ []) :
    saveOfflineInterview s iv = Except.ok (putInterview s iv) := by
  simp only [saveOfflineInterview]
  rw [if_neg]
  rintro (h | h | h)
  · exact ha h
  · exact hb h
  · exact hc h

/-- Second valid record under the same id as `pendingRec`, with different
field values (the "latest save"). -/
def pendingRecV2 : OfflineInterview :=
  { pendingRec with
    responses := [⟨1, "Não"⟩, ⟨2, "Talvez"⟩]
    metadata := { pendingRec.metadata with device_info := "device-v2" } }

/-- C8: saving two structurally valid records with the same id leaves
exactly one record under that id — the second one — and the rest of the
store is untouched: `saveOfflineInterview` goes through IndexedDB `put`
(create-or-replace by key path), never a duplicating insert. -/
theorem save_same_id_upsert (s : Store) (iv1 iv2 : OfflineInterview)
    (hn : (s.map (fun q => q.id)).Nodup) (hid : iv1.id = iv2.id)
    (h1a : iv1.id ≠ "") (h1b : iv1.survey_id ≠ 0) (h1c : iv1.responses ≠ [])
    (h2a : iv2.id ≠ "") (h2b : iv2.survey_id ≠ 0) (h2c : iv2.responses ≠ []) :
    saveOfflineInterview s iv1 = Except.ok (putInterview s iv1) ∧
    saveOfflineInterview (putInterview s iv1) iv2 =
      Except.ok (putInterview (putInterview s iv1) iv2) ∧
    (putInterview (putInterview s iv1) iv2).filter (fun r => r.id = iv2.id) =
      [iv2] ∧
    getInterview (putInterview (putInterview s iv1) iv2) iv2.id = some iv2 ∧
    ∀ j, j ≠ iv2.id →
      getInterview (putInterview (putInterview s iv1) iv2) j =
        getInterview s j := by
  have hn1 := putInterview_ids_nodup s iv1 hn
  have hn2 := putInterview_ids_nodup (putInterview s iv1) iv2 hn1
  refine ⟨saveOfflineInterview_ok s iv1 h1a h1b h1c,
    saveOfflineInterview_ok _ iv2 h2a h2b h2c, ?_, ?_, ?_⟩
  · exact filter_id_singleton _ iv2 iv2.id hn2
      (getInterview_put_self (putInterview s iv1) iv2)
  · exact getInterview_put_self (putInterview s iv1) iv2
  · intro j hj
    rw [getInterview_put_ne _ _ _ hj, getInterview_put_ne _ _ _ (hid ▸ hj)]

/-- Witness for C8: saving `pendingRec` then `pendingRecV2` (same id)
into an empty store leaves exactly `pendingRecV2` under that id. -/
theorem save_same_id_upsert_witness :
    saveOfflineInterview [] pendingRec = Except.ok (putInterview [] pendingRec) ∧
    saveOfflineInterview (putInterview [] pendingRec) pendingRecV2 =
      Except.ok (putInterview (putInterview [] pendingRec) pendingRecV2) ∧
    (putInterview (putInterview [] pendingRec) pendingRecV2).filter
      (fun r => r.id = pendingRecV2.id) = [pendingRecV2] ∧
    getInterview (putInterview (putInterview [] pendingRec) pendingRecV2)
      pendingRecV2.id = some pendingRecV2 ∧
    ∀ j, j ≠ pendingRecV2.id →
      getInterview (putInterview (putInterview [] pendingRec) pendingRecV2) j =
        getInterview [] j :=
  save_same_id_upsert [] pendingRec pendingRecV2 (by decide) rfl
    (by decide) (by decide) (by decide) (by decide) (by decide) (by decide)

/-- C1 counterexample: drain a single fresh record under the partial
two-phase failure.  The record is left with status `'error'`, yet the
next `listPending` call returns nothing (it selects only `'pending'`) and
a second drain cycle attempts no upload at all — contradicting the claim
that `error` records are re-attempted like `pending` ones. -/
theorem error_record_not_listed_cex :
    (getInterview failDrainStore pendingRec.id).map
      (fun r => r.metadata.sync_status) = some SyncStatus.error ∧
    getPendingInterviews failDrainStore 50 = [] ∧
    (syncPendingData partialFailOutcome "t2"
      ⟨false, true, failDrainStore⟩).2.2 = [] := by
  decide

/-- C1 amended: a record whose `syncStatus` is `'error'` after a failed
drain is never returned by `getPendingInterviews` (which queries the
status index for `'pending'` only) and is never re-attempted: every
subsequent `syncPendingData` call leaves it in the store unchanged. -/
theorem error_records_not_retried (outcome : String → RemoteOutcome)
    (now : String) (s : Store) (r : OfflineInterview)
    (hn : (s.map (fun q => q.id)).Nodup) (hr : r ∈ s)
    (he : r.metadata.sync_status = SyncStatus.error) :
    (∀ limit, r ∉ getPendingInterviews s limit) ∧
    ∀ isS onL : Bool,
      getInterview (syncPendingData outcome now ⟨isS, onL, s⟩).2.1.store r.id =
        some r := by
  constructor
  · intro limit hmem
    have h2 := (mem_getPending s limit r hmem).2
    rw [he] at h2
    cases h2
  · intro isS onL
    exact drain_preserves_nonpending outcome now s r hn hr
      (by rw [he]; decide) isS onL

/-- Witness for C1's amended statement on a one-record `error` store. -/
theorem error_records_not_retried_witness :
    errorRec ∉ getPendingInterviews [errorRec] 50 ∧
    getInterview (syncPendingData partialFailOutcome "t9"
      ⟨false, true, [errorRec]⟩).2.1.store errorRec.id = some errorRec :=
  ⟨(error_records_not_retried partialFailOutcome "t9" [errorRec] errorRec
      (by decide) (by decide) (by decide)).1 50,
   (error_records_not_retried partialFailOutcome "t9" [errorRec] errorRec
      (by decide) (by decide) (by decide)).2 false true⟩

/-- C9: a record with status `'syncing'` (e.g. left behind by an
interrupted drain) is never returned by `getPendingInterviews` for any
limit, and no subsequent `syncPendingData` call ever touches it: it stays
in the store, still `'syncing'`, indefinitely. -/
theorem syncing_records_stranded (outcome : String → RemoteOutcome)
    (now : String) (s : Store) (r : OfflineInterview)
    (hn : (s.map (fun q => q.id)).Nodup) (hr : r ∈ s)
    (hsy : r.metadata.sync_status = SyncStatus.syncing) :
    (∀ limit, r ∉ getPendingInterviews s limit) ∧
    ∀ isS onL : Bool,
      getInterview (syncPendingData outcome now ⟨isS, onL, s⟩).2.1.store r.id =
        some r := by
  constructor
  · intro limit hmem
    have h2 := (mem_getPending s limit r hmem).2
    rw [hsy] at h2
    cases h2
  · intro isS onL
    exact drain_preserves_nonpending outcome now s r hn hr
      (by rw [hsy]; decide) isS onL

/-- Witness for C9: a `'syncing'` record next to a `'pending'` one
survives a fully successful drain untouched. -/
theorem syncing_records_stranded_witness :
    syncingRec ∉ getPendingInterviews [syncingRec, pendingRec] 50 ∧
    getInterview (syncPendingData allOkOutcome "t9"
      ⟨false, true, [syncingRec, pendingRec]⟩).2.1.store syncingRec.id =
      some syncingRec :=
  ⟨(syncing_records_stranded allOkOutcome "t9" [syncingRec, pendingRec]
      syncingRec (by decide) (by decide) (by decide)).1 50,
   (syncing_records_stranded allOkOutcome "t9" [syncingRec, pendingRec]
      syncingRec (by decide) (by decide) (by decide)).2 false true⟩

/-- C3 counterexample: first drain of a fresh record (`sync_attempts` 0)
under create-ok/responses-fail.  The record does end `'error'` with the
message set, but `sync_attempts` is 2, not 1: the counter is bumped once
by the `'syncing'` transition and once by the `'error'` transition. -/
theorem partial_failure_two_updates_cex :
    pendingRec.metadata.sync_attempts = 0 ∧
    (partialFailOutcome pendingRec.id).createOk = true ∧
    (partialFailOutcome pendingRec.id).responsesOk = false ∧
    (getInterview failDrainStore pendingRec.id).map
      (fun r => r.metadata.sync_status) = some SyncStatus.error ∧
    (getInterview failDrainStore pendingRec.id).map
      (fun r => r.metadata.error_message) = some (some uploadFailMsg) ∧
    (getInterview failDrainStore pendingRec.id).map
      (fun r => r.metadata.sync_attempts) = some 2 ∧
    (getInterview failDrainStore pendingRec.id).map
      (fun r => r.metadata.sync_attempts) ≠ some 1 := by
  decide

/-- C3 amended: after the first drain in which the remote create succeeds
and the responses post fails, the record's status is `'error'`, its
`errorMessage` is set, and `syncAttempts` equals exactly 2 (one increment
for the `'syncing'` update, one for the `'error'` update). -/
theorem partial_failure_two_attempts (outcome : String → RemoteOutcome)
    (now : String) (s : Store) (r : OfflineInterview)
    (hn : (s.map (fun q => q.id)).Nodup)
    (hr : r ∈ getPendingInterviews s 50)
    (ha : r.metadata.sync_attempts = 0)
    (hc : (outcome r.id).createOk = true)
    (hf : (outcome r.id).responsesOk = false) :
    ∃ r', getInterview (syncPendingData outcome now ⟨false, true, s⟩).2.1.store
        r.id = some r' ∧
      r'.metadata.sync_status = SyncStatus.error ∧
      r'.metadata.error_message = some uploadFailMsg ∧
      r'.metadata.sync_attempts = 2 := by
  have hu : uploadInterview (outcome r.id) = false := by
    simp [uploadInterview, hc, hf]
  refine ⟨_, drain_fail_result outcome now s r hn hr hu, rfl, ?_, ?_⟩
  · show (if uploadFailMsg = "" then
        (applyStatusUpdate now SyncStatus.syncing none r).metadata.error_message
      else some uploadFailMsg) = some uploadFailMsg
    rw [if_neg (by decide)]
  · show r.metadata.sync_attempts + 1 + 1 = 2
    rw [ha]

/-- Witness for C3's amended statement: the concrete one-record first
drain under the partial failure. -/
theorem partial_failure_two_attempts_witness :
    ∃ r', getInterview (syncPendingData partialFailOutcome "t1"
        ⟨false, true, [pendingRec]⟩).2.1.store pendingRec.id = some r' ∧
      r'.metadata.sync_status = SyncStatus.error ∧
      r'.metadata.error_message = some uploadFailMsg ∧
      r'.metadata.sync_attempts = 2 :=
  partial_failure_two_attempts partialFailOutcome "t1" [pendingRec]
    pendingRec (by decide) (by decide) rfl rfl rfl

/-- C4: a drained record is reported `'synced'` iff both remote calls
succeed; a record that reaches `'synced'` is deleted from the store, and
a subsequent `listPending` never returns it; a record for which either
call fails stays in the store with status `'error'`. -/
theorem drained_record_synced_iff_both_ok (outcome : String → RemoteOutcome)
    (now : String) (s : Store) (r : OfflineInterview)
    (hn : (s.map (fun q => q.id)).Nodup)
    (hr : r ∈ getPendingInterviews s 50) :
    ((⟨r.id, SyncStatus.synced, none⟩ : Detail) ∈
        (syncPendingData outcome now ⟨false, true, s⟩).1.details ↔
      (outcome r.id).createOk = true ∧ (outcome r.id).responsesOk = true) ∧
    ((outcome r.id).createOk = true ∧ (outcome r.id).responsesOk = true →
      getInterview (syncPendingData outcome now ⟨false, true, s⟩).2.1.store
        r.id = none ∧
      ∀ limit, r ∉ getPendingInterviews
        (syncPendingData outcome now ⟨false, true, s⟩).2.1.store limit) ∧
    (¬((outcome r.id).createOk = true ∧ (outcome r.id).responsesOk = true) →
      ∃ r', getInterview (syncPendingData outcome now ⟨false, true, s⟩).2.1.store
          r.id = some r' ∧
        r'.metadata.sync_status = SyncStatus.error) := by
  have hub : uploadInterview (outcome r.id) = true ↔
      (outcome r.id).createOk = true ∧ (outcome r.id).responsesOk = true := by
    simp [uploadInterview, Bool.and_eq_true]
  refine ⟨?_, ?_, ?_⟩
  · rw [syncPendingData_details]
    constructor
    · intro hmem
      obtain ⟨q, hq, hqe⟩ := List.mem_map.mp hmem
      have hqid : q.id = r.id := by
        by_cases hu : uploadInterview (outcome q.id) = true
        · rw [if_pos hu] at hqe
          exact congrArg Detail.id hqe
        · rw [if_neg hu] at hqe
          exact congrArg Detail.id hqe
      have hqr : q = r := eq_of_mem_of_id_eq s q r hn
        (mem_getPending s 50 q hq).1 (mem_getPending s 50 r hr).1 hqid
      subst hqr
      by_cases hu : uploadInterview (outcome q.id) = true
      · exact hub.mp hu
      · rw [if_neg hu] at hqe
        simp at hqe
    · intro hboth
      refine List.mem_map.mpr ⟨r, hr, ?_⟩
      rw [if_pos (hub.mpr hboth)]
  · intro hboth
    have hnone := drain_success_result outcome now s r hn hr (hub.mpr hboth)
    refine ⟨hnone, fun limit hmem => ?_⟩
    have hmem' : r ∈ (syncPendingData outcome now ⟨false, true, s⟩).2.1.store :=
      (getPendingInterviews_sublist _ limit).subset hmem
    have hcontra := List.find?_eq_none.mp hnone r hmem'
    simp at hcontra
  · intro hboth
    have hu : uploadInterview (outcome r.id) = false := by
      cases hcase : uploadInterview (outcome r.id)
      · rfl
      · exact absurd (hub.mp hcase) hboth
    exact ⟨_, drain_fail_result outcome now s r hn hr hu, rfl⟩

/-- Witness for C4: on a one-record store with both remote calls
succeeding, the drain reports the record `'synced'` and deletes it. -/
theorem drained_record_synced_iff_both_ok_witness :
    (⟨pendingRec.id, SyncStatus.synced, none⟩ : Detail) ∈
      (syncPendingData allOkOutcome "t"
        ⟨false, true, [pendingRec]⟩).1.details ∧
    getInterview (syncPendingData allOkOutcome "t"
      ⟨false, true, [pendingRec]⟩).2.1.store pendingRec.id = none :=
  ⟨(drained_record_synced_iff_both_ok allOkOutcome "t" [pendingRec]
      pendingRec (by decide) (by decide)).1.mpr ⟨rfl, rfl⟩,
   ((drained_record_synced_iff_both_ok allOkOutcome "t" [pendingRec]
      pendingRec (by decide) (by decide)).2.1 ⟨rfl, rfl⟩).1⟩

end OfflineStorage
